import Mathlib

/-!
# Verification of the Haven messaging E2EE layer

Shallow embedding of the cryptography and identity utilities of the
messaging application, together with proofs of the specified properties.

* Byte buffers (`ArrayBuffer`/`Uint8Array` contents) are `List Nat`, each
  entry `< 256`.
* JS strings that are manipulated character by character are `List Char`.
* The browser host functions `window.btoa` / `window.atob` are modelled
  concretely by the standard base64 alphabet encoding they implement
  (RFC 4648, which the WHATWG infra standard mandates for these functions).
-/

namespace Haven

/-! ## Base64 helpers (crypto utilities, `arrayBufferToBase64` / `base64ToArrayBuffer`)

`arrayBufferToBase64` builds a binary string whose code units are exactly the
bytes of the buffer and passes it to `window.btoa`; `base64ToArrayBuffer`
applies `window.atob` and reads the code units back.  We therefore model the
intermediate binary string by its list of code units (identical to the byte
list) and model `btoa`/`atob` directly on that list. -/

/-- The base64 alphabet used by `btoa`/`atob`. -/
def b64Alphabet : List Char :=
  "ABCDEFGHIJKLMNOPQRSTUVWXYZabcdefghijklmnopqrstuvwxyz0123456789+/".toList

/-- Sextet value (0..63) to base64 character. -/
def b64Char (n : Nat) : Char := b64Alphabet.getD n 'A'

/-- Base64 character back to its sextet value (64 for characters outside the
alphabet; `atob` raises on those, which the round trip never hits). -/
def b64Val (c : Char) : Nat := b64Alphabet.indexOf c

/-- `window.btoa` on a binary string given as its list of code units:
standard base64 with `=` padding, three bytes to four characters. -/
def btoa : List Nat → List Char
  | [] => []
  | [a] => [b64Char (a / 4), b64Char (a % 4 * 16), '=', '=']
  | [a, b] => [b64Char (a / 4), b64Char (a % 4 * 16 + b / 16), b64Char (b % 16 * 4), '=']
  | a :: b :: c :: rest =>
      b64Char (a / 4) :: b64Char (a % 4 * 16 + b / 16) ::
      b64Char (b % 16 * 4 + c / 64) :: b64Char (c % 64) :: btoa rest

/-- `window.atob`, returning the code units of the decoded binary string.
Invalid input (on which the host function raises) decodes to junk; the
round-trip theorem only evaluates it on `btoa` output. -/
def atob : List Char → List Nat
  | c0 :: c1 :: c2 :: c3 :: rest =>
      if c2 = '=' then
        [b64Val c0 * 4 + b64Val c1 / 16]
      else if c3 = '=' then
        [b64Val c0 * 4 + b64Val c1 / 16, b64Val c1 % 16 * 16 + b64Val c2 / 4]
      else
        (b64Val c0 * 4 + b64Val c1 / 16) :: (b64Val c1 % 16 * 16 + b64Val c2 / 4) ::
        (b64Val c2 % 4 * 64 + b64Val c3) :: atob rest
  | _ => []

/-- `arrayBufferToBase64`: the loop turns the byte list into the binary
string with the same code units, then calls `btoa`. -/
def arrayBufferToBase64 (buffer : List Nat) : List Char := btoa buffer

/-- `base64ToArrayBuffer`: `atob`, then read each code unit back as a byte. -/
def base64ToArrayBuffer (base64 : List Char) : List Nat := atob base64

/-! ## Identity generator (`generateUsername`, `validateUsername`)

JS strings handled character by character are modelled as `List Char`;
`crypto.getRandomValues` is modelled by passing the random 32-bit value in
explicitly, so `getSecureRandomInt` takes the drawn value and the bound. -/

/-- Word list `adjectives`. -/
def adjectives : List (List Char) :=
  (["silent", "hidden", "shadow", "swift", "brave", "calm", "dark", "bright",
    "frost", "storm", "iron", "steel", "night", "dawn", "ghost", "noble",
    "wild", "free", "lone", "stark", "bold", "keen", "true", "wise",
    "deep", "high", "cold", "warm", "quick", "slow", "old", "young",
    "grey", "blue", "red", "black", "white", "gold", "silver", "copper"]).map String.toList

/-- Word list `nouns`. -/
def nouns : List (List Char) :=
  (["wolf", "hawk", "raven", "fox", "bear", "lion", "tiger", "eagle",
    "serpent", "dragon", "phoenix", "falcon", "panther", "viper", "cobra", "owl",
    "shark", "whale", "storm", "thunder", "lightning", "flame", "frost", "shadow",
    "knight", "ranger", "scout", "guard", "sentinel", "warden", "seeker", "hunter",
    "cipher", "ghost", "phantom", "spectre", "wraith", "shade", "spirit", "oracle"]).map String.toList

/-- `getSecureRandomInt(max)`: the drawn 32-bit value reduced mod `max`. -/
def getSecureRandomInt (randomValue bound : Nat) : Nat := randomValue % bound

/-- `word.charAt(0).toUpperCase() + word.slice(1)` on an ASCII word. -/
def capitalizeWord : List Char → List Char
  | [] => []
  | c :: cs => c.toUpper :: cs

/-- Decimal digit to its character. -/
def digitChar (d : Nat) : Char := Char.ofNat (48 + d)

/-- Digit accumulation loop of decimal rendering (`fuel` bounds the number of
divisions; it is always called with `fuel = n`, which suffices). -/
def decDigitsAux : Nat → Nat → List Char → List Char
  | 0, _, acc => acc
  | fuel + 1, n, acc => if n = 0 then acc else decDigitsAux fuel (n / 10) (digitChar (n % 10) :: acc)

/-- JS number-to-string interpolation for a natural number: decimal digits. -/
def natToDecimal (n : Nat) : List Char := if n = 0 then ['0'] else decDigitsAux n n []

/-- `generateUsername`, with the three random draws passed explicitly:
capitalized adjective, capitalized noun, then a number below 1000. -/
def generateUsername (r1 r2 r3 : Nat) : List Char :=
  capitalizeWord (adjectives.getD (getSecureRandomInt r1 adjectives.length) []) ++
  capitalizeWord (nouns.getD (getSecureRandomInt r2 nouns.length) []) ++
  natToDecimal (getSecureRandomInt r3 1000)

/-- Return shape of `validateUsername`. -/
structure ValidationResult where
  valid : Bool
  error : Option String
deriving DecidableEq

/-- `[a-zA-Z]`. -/
def isAsciiLetter (c : Char) : Bool :=
  (('a' ≤ c) && (c ≤ 'z')) || (('A' ≤ c) && (c ≤ 'Z'))

/-- `[a-zA-Z0-9_]`. -/
def isUsernameChar (c : Char) : Bool := isAsciiLetter c || c.isDigit || c == '_'

/-- The test `/^[a-zA-Z][a-zA-Z0-9_]*$/.test(username)`. -/
def usernameRegexTest : List Char → Bool
  | [] => false
  | c :: cs => isAsciiLetter c && cs.all isUsernameChar

/-- `validateUsername`. -/
def validateUsername (username : List Char) : ValidationResult :=
  if username.isEmpty then ⟨false, some "Username is required"⟩
  else if username.length < 3 then ⟨false, some "Username must be at least 3 characters"⟩
  else if 30 < username.length then ⟨false, some "Username must be 30 characters or less"⟩
  else if !usernameRegexTest username then
    ⟨false, some "Username must start with a letter and contain only letters, numbers, and underscores"⟩
  else ⟨true, none⟩

/-- A capitalized word list entry: non-empty, all ASCII letters. -/
def capWordOk (w : List Char) : Bool := !w.isEmpty && w.all isAsciiLetter

/-! ## Symbolic model of the hybrid message encryption

`encryptMessage`/`decryptMessage` call into `window.crypto.subtle`, a host
primitive.  The primitives are modelled symbolically (standard Dolev-Yao
style): an `ArrayBuffer` holds either encoded text, raw random bytes, or a
ciphertext term remembering exactly what produced it; decryption succeeds
precisely on a matching ciphertext term.  An RSA-OAEP key pair is identified
by a number; holding public and private halves of the same pair means
holding the same identifier.  Randomness (`generateKey`, `getRandomValues`)
is passed in explicitly as the bytes the random source produced.  The base64
helpers at this layer are the identity on buffers, justified by the
byte-level round trip proven above. -/

/-- Symbolic contents of an `ArrayBuffer`. -/
inductive Data where
  | text (s : String)
  | bytes (bs : List Nat)
  | aesCt (key iv pt : Data)
  | rsaCt (keyPairId : Nat) (pt : Data)
deriving DecidableEq

/-- Failure conditions of the decryption pipeline as the caller can tell
them apart: the explicit missing-key throw in `decryptMessage` (a dedicated
`Error` with a per-user message), the generic `OperationError` `DOMException`
with which `subtle.decrypt` rejects — the same un-tagged exception for an
RSA-OAEP unwrap rejection and for an AES-GCM tag rejection, neither caught
nor re-labelled inside `decryptMessage` — and a `JSON.parse` failure in the
message-fetch caller. -/
inductive CryptoError where
  | noKeyForRecipient (userId : String)
  | operationError
  | parseError
deriving DecidableEq

/-- `subtle.encrypt` with AES-GCM. -/
def aesEncrypt (key iv pt : Data) : Data := .aesCt key iv pt

/-- `subtle.decrypt` with AES-GCM: authenticated, so it succeeds only on an
AES ciphertext made with the same key and iv. -/
def aesDecrypt (key iv ct : Data) : Except CryptoError Data :=
  match ct with
  | .aesCt k i p => if k = key ∧ i = iv then .ok p else .error .operationError
  | _ => .error .operationError

/-- `subtle.encrypt` with RSA-OAEP under a public key. -/
def rsaEncrypt (publicKeyId : Nat) (pt : Data) : Data := .rsaCt publicKeyId pt

/-- `subtle.decrypt` with RSA-OAEP: OAEP is checked, so it succeeds only on
an RSA ciphertext made under the matching public key. -/
def rsaDecrypt (privateKeyId : Nat) (ct : Data) : Except CryptoError Data :=
  match ct with
  | .rsaCt pk p => if pk = privateKeyId then .ok p else .error .operationError
  | _ => .error .operationError

/-- `TextDecoder().decode`: recovers encoded text; on any other buffer it
produces replacement garbage (it never throws), modelled as `""`. -/
def textDecode : Data → String
  | .text s => s
  | _ => ""

/-- `arrayBufferToBase64` at the symbolic layer: the encoding is injective
and inverted by `base64ToArrayBuffer` (proven byte-for-byte above), so the
symbolic layer carries the buffer itself. -/
def arrayBufferToBase64Sym (d : Data) : Data := d

/-- `base64ToArrayBuffer` at the symbolic layer. -/
def base64ToArrayBufferSym (d : Data) : Data := d

/-- A JS `Record<string, _>` as an insertion-ordered association list with
distinct keys. -/
abbrev StrRecord := List (String × Data)

/-- Property lookup `m[k]` on a record. -/
def recordLookup (m : StrRecord) (k : String) : Option Data :=
  match m with
  | [] => none
  | (k₁, v) :: rest => if k₁ = k then some v else recordLookup rest k

/-- JS falsiness of a wrapped-key string (`if (!encryptedKeyStr)`): the
string is falsy exactly when empty, i.e. when it encodes an empty buffer. -/
def isFalsyStr : Data → Bool
  | .bytes [] => true
  | .text "" => true
  | _ => false

/-- The return shape of `encryptMessage`. -/
structure Envelope where
  encryptedContent : Data
  encryptedKeys : StrRecord
  iv : Data
deriving DecidableEq

/-- The `encryptedKeys` argument of `decryptMessage`:
`Record<string, string> | string` (current map shape vs legacy single
string), discriminated by `typeof`. -/
inductive EncryptedKeysField where
  | legacy (s : Data)
  | keyMap (m : StrRecord)
deriving DecidableEq

/-- `encryptMessage(text, recipientPublicKeys)`: hybrid encryption.  The two
random draws — the AES-256 session key and the 96-bit iv — are passed in as
`sessionKeyBytes` and `ivBytes`. -/
def encryptMessage (text : String) (recipientPublicKeys : List (String × Nat))
    (sessionKeyBytes ivBytes : List Nat) : Envelope :=
  let encodedText := Data.text text
  let sessionKey := Data.bytes sessionKeyBytes
  let iv := Data.bytes ivBytes
  let encryptedContentBuffer := aesEncrypt sessionKey iv encodedText
  let rawSessionKey := sessionKey
  let encryptedKeys := recipientPublicKeys.map
    (fun p => (p.1, arrayBufferToBase64Sym (rsaEncrypt p.2 rawSessionKey)))
  { encryptedContent := arrayBufferToBase64Sym encryptedContentBuffer
    encryptedKeys := encryptedKeys
    iv := arrayBufferToBase64Sym iv }

/-- The legacy-vs-map handling at the top of `decryptMessage`: a legacy
string is used as-is; in the map shape the holder's entry is looked up and
its absence (or falsiness) raises the missing-key error. -/
def selectWrappedKey (encryptedKeys : EncryptedKeysField) (userId : String) :
    Except CryptoError Data :=
  match encryptedKeys with
  | .legacy s => .ok s
  | .keyMap m =>
    match recordLookup m userId with
    | some s => if isFalsyStr s then .error (.noKeyForRecipient userId) else .ok s
    | none => .error (.noKeyForRecipient userId)

/-- `decryptMessage(encryptedContent, encryptedKeys, iv, privateKey, userId)`:
select the wrapped key, unwrap it with the private key, import it as the
session key, decrypt the content, decode the text. -/
def decryptMessage (encryptedContent : Data) (encryptedKeys : EncryptedKeysField)
    (iv : Data) (privateKey : Nat) (userId : String) : Except CryptoError String :=
  match selectWrappedKey encryptedKeys userId with
  | .error e => .error e
  | .ok encryptedKeyStr =>
    match rsaDecrypt privateKey (base64ToArrayBufferSym encryptedKeyStr) with
    | .error e => .error e
    | .ok rawSessionKey =>
      match aesDecrypt rawSessionKey (base64ToArrayBufferSym iv)
          (base64ToArrayBufferSym encryptedContent) with
      | .error e => .error e
      | .ok decryptedBuffer => .ok (textDecode decryptedBuffer)

/-! ## Batch decryption in the message-fetch caller (`ChatContext.fetchMessages`)

Each stored row's `content` is `JSON.parse`d and decrypted inside a
per-message `try`; a failure yields the sentinel placeholder for that row
only.  The whole batch is a `Promise.all` over `data.map`, i.e. an
independent map. -/

/-- A stored `content` string: either it parses to an envelope (with either
shape of `encryptedKeys`), or `JSON.parse`/field access fails on it. -/
inductive MsgContent where
  | envelope (encryptedContent : Data) (encryptedKeys : EncryptedKeysField) (iv : Data)
  | notJson
deriving DecidableEq

/-- A row of the `messages` table as fetched. -/
structure StoredMessage where
  id : Nat
  sender_id : String
  content : MsgContent
deriving DecidableEq

/-- A row decorated with the decryption outcome. -/
structure DecryptedMessage where
  id : Nat
  sender_id : String
  content : MsgContent
  decryptedContent : String
  is_mine : Bool
deriving DecidableEq

/-- The body of the per-message `try`: parse, then `decryptMessage`. -/
def tryDecryptStored (privateKey : Nat) (userId : String) :
    MsgContent → Except CryptoError String
  | .notJson => .error .parseError
  | .envelope c ks iv => decryptMessage c ks iv privateKey userId

/-- The per-message sentinel rendered on any decryption failure. -/
def decryptFailedSentinel : String := "⚠️ Decryption Failed"

/-- One iteration of the batch map: decorate the row with the plaintext, or
with the sentinel if its `try` failed. -/
def processStoredMessage (privateKey : Nat) (userId : String)
    (msg : StoredMessage) : DecryptedMessage :=
  match tryDecryptStored privateKey userId msg.content with
  | .ok t => ⟨msg.id, msg.sender_id, msg.content, t, msg.sender_id == userId⟩
  | .error _ => ⟨msg.id, msg.sender_id, msg.content, decryptFailedSentinel, msg.sender_id == userId⟩

/-- The batch decryption in `fetchMessages`: an independent map over the
fetched rows. -/
def fetchMessagesDecrypt (privateKey : Nat) (userId : String)
    (msgs : List StoredMessage) : List DecryptedMessage :=
  msgs.map (processStoredMessage privateKey userId)

/-- A concrete two-row batch: a row that cannot be parsed followed by a row
encrypted for identity `"u"` under key pair 5. -/
def demoBatch : List StoredMessage :=
  [⟨1, "a", .notJson⟩,
   ⟨2, "b", .envelope (.aesCt (.bytes [9]) (.bytes [2]) (.text "hi"))
      (.keyMap [("u", .rsaCt 5 (.bytes [9]))]) (.bytes [2])⟩]

theorem b64Val_b64Char : ∀ n < 64, b64Val (b64Char n) = n := by decide

theorem b64Char_ne_pad : ∀ n < 64, b64Char n ≠ '=' := by decide

theorem atob_btoa_bounded :
    ∀ (fuel : Nat) (bs : List Nat), bs.length ≤ fuel → (∀ x ∈ bs, x < 256) →
      atob (btoa bs) = bs := by
  intro fuel
  induction fuel with
  | zero =>
    intro bs hlen _
    have : bs = [] := List.length_eq_zero.mp (Nat.le_zero.mp hlen)
    subst this
    rfl
  | succ n ih =>
    intro bs hlen hbound
    match bs with
    | [] => rfl
    | [a] =>
      have ha : a < 256 := hbound a (by simp)
      have h0 : a / 4 < 64 := by omega
      have h1 : a % 4 * 16 < 64 := by omega
      simp only [btoa, atob, if_pos rfl]
      rw [b64Val_b64Char _ h0, b64Val_b64Char _ h1]
      have e0 : a / 4 * 4 + a % 4 * 16 / 16 = a := by omega
      rw [e0]
      simp
    | [a, b] =>
      have ha : a < 256 := hbound a (by simp)
      have hb : b < 256 := hbound b (by simp)
      have h0 : a / 4 < 64 := by omega
      have h1 : a % 4 * 16 + b / 16 < 64 := by omega
      have h2 : b % 16 * 4 < 64 := by omega
      simp only [btoa, atob]
      rw [if_neg (b64Char_ne_pad _ h2), if_pos trivial]
      rw [b64Val_b64Char _ h0, b64Val_b64Char _ h1, b64Val_b64Char _ h2]
      have e0 : a / 4 * 4 + (a % 4 * 16 + b / 16) / 16 = a := by omega
      have e1 : (a % 4 * 16 + b / 16) % 16 * 16 + b % 16 * 4 / 4 = b := by omega
      rw [e0, e1]
    | a :: b :: c :: rest =>
      have ha : a < 256 := hbound a (by simp)
      have hb : b < 256 := hbound b (by simp)
      have hc : c < 256 := hbound c (by simp)
      have h0 : a / 4 < 64 := by omega
      have h1 : a % 4 * 16 + b / 16 < 64 := by omega
      have h2 : b % 16 * 4 + c / 64 < 64 := by omega
      have h3 : c % 64 < 64 := by omega
      simp only [btoa, atob]
      rw [if_neg (b64Char_ne_pad _ h2), if_neg (b64Char_ne_pad _ h3)]
      rw [b64Val_b64Char _ h0, b64Val_b64Char _ h1, b64Val_b64Char _ h2, b64Val_b64Char _ h3]
      have e0 : a / 4 * 4 + (a % 4 * 16 + b / 16) / 16 = a := by omega
      have e1 : (a % 4 * 16 + b / 16) % 16 * 16 + (b % 16 * 4 + c / 64) / 4 = b := by omega
      have e2 : (b % 16 * 4 + c / 64) % 4 * 64 + c % 64 = c := by omega
      rw [e0, e1, e2]
      have hrest : rest.length ≤ n := by
        simp only [List.length_cons] at hlen
        omega
      have := ih rest hrest (fun x hx => hbound x (by simp [hx]))
      rw [this]

theorem adjectives_length : adjectives.length = 40 := by decide

theorem nouns_length : nouns.length = 40 := by decide

theorem adj_ok : ∀ i < 40,
    capWordOk (capitalizeWord (adjectives.getD i [])) = true ∧
    3 ≤ (capitalizeWord (adjectives.getD i [])).length ∧
    (capitalizeWord (adjectives.getD i [])).length ≤ 6 := by decide

theorem noun_ok : ∀ i < 40,
    capWordOk (capitalizeWord (nouns.getD i [])) = true ∧
    3 ≤ (capitalizeWord (nouns.getD i [])).length ∧
    (capitalizeWord (nouns.getD i [])).length ≤ 9 := by decide

set_option maxRecDepth 40000 in
theorem natToDecimal_ok : ∀ n < 1000,
    1 ≤ (natToDecimal n).length ∧ (natToDecimal n).length ≤ 3 ∧
    (natToDecimal n).all Char.isDigit = true := by decide

theorem letter_usernameChar (c : Char) (h : isAsciiLetter c = true) :
    isUsernameChar c = true := by
  simp [isUsernameChar, h]

theorem digit_usernameChar (c : Char) (h : c.isDigit = true) :
    isUsernameChar c = true := by
  simp [isUsernameChar, h]

theorem all_letters_usernameChars (l : List Char) (h : l.all isAsciiLetter = true) :
    l.all isUsernameChar = true := by
  rw [List.all_eq_true] at h ⊢
  intro c hc
  exact letter_usernameChar c (h c hc)

theorem all_digits_usernameChars (l : List Char) (h : l.all Char.isDigit = true) :
    l.all isUsernameChar = true := by
  rw [List.all_eq_true] at h ⊢
  intro c hc
  exact digit_usernameChar c (h c hc)

theorem validate_of (u : List Char) (h3 : 3 ≤ u.length) (h30 : u.length ≤ 30)
    (hre : usernameRegexTest u = true) : validateUsername u = ⟨true, none⟩ := by
  have hne : u.isEmpty = false := by
    cases u with
    | nil => simp at h3
    | cons c cs => rfl
  have c1 : ¬ (u.length < 3) := by omega
  have c2 : ¬ (30 < u.length) := by omega
  simp [validateUsername, hne, c1, c2, hre]

theorem username_parts_valid (A B D : List Char)
    (hA : capWordOk A = true) (hB : capWordOk B = true)
    (hAm : 3 ≤ A.length) (hAl : A.length ≤ 6)
    (hBm : 3 ≤ B.length) (hBl : B.length ≤ 9)
    (hD1 : 1 ≤ D.length) (hD3 : D.length ≤ 3) (hDd : D.all Char.isDigit = true) :
    validateUsername (A ++ B ++ D) = ⟨true, none⟩ := by
  rw [List.append_assoc]
  have hlen : (A ++ (B ++ D)).length = A.length + (B.length + D.length) := by
    simp [List.length_append]
  apply validate_of
  · omega
  · omega
  · cases A with
    | nil => simp [capWordOk] at hA
    | cons c cs =>
      simp only [capWordOk, List.isEmpty_cons, Bool.not_false, List.all_cons,
        Bool.true_and, Bool.and_eq_true] at hA hB
      simp only [List.cons_append, usernameRegexTest, Bool.and_eq_true]
      refine ⟨hA.1, ?_⟩
      rw [List.all_append, List.all_append]
      rw [all_letters_usernameChars cs hA.2]
      have hBall : B.all isAsciiLetter = true := by
        rcases hB with ⟨_, hB2⟩
        cases B with
        | nil => rfl
        | cons b bs => simp_all [List.all_cons]
      rw [all_letters_usernameChars B hBall, all_digits_usernameChars D hDd]
      rfl

theorem recordLookup_wrapped (recips : List (String × Nat)) (sk : Data) (uid : String)
    (pk : Nat) (hmem : (uid, pk) ∈ recips) (hnd : (recips.map Prod.fst).Nodup) :
    recordLookup (recips.map fun p => (p.1, arrayBufferToBase64Sym (rsaEncrypt p.2 sk))) uid
      = some (.rsaCt pk sk) := by
  induction recips with
  | nil => simp at hmem
  | cons hd tl ih =>
    obtain ⟨u₁, p₁⟩ := hd
    simp only [List.map_cons, recordLookup, arrayBufferToBase64Sym, rsaEncrypt]
    rcases List.mem_cons.mp hmem with heq | htl
    · injection heq with h1 h2
      subst h1
      subst h2
      rw [if_pos rfl]
    · by_cases h : u₁ = uid
      · exfalso
        subst h
        have : u₁ ∈ tl.map Prod.fst := List.mem_map.mpr ⟨(u₁, pk), htl, rfl⟩
        exact (List.nodup_cons.mp (by simpa using hnd)).1 this
      · rw [if_neg h]
        exact ih htl (List.nodup_cons.mp (by simpa using hnd)).2

end Haven

/-- C9: the base64 helpers form a round trip — for every byte buffer,
`base64ToArrayBuffer (arrayBufferToBase64 b) = b`. -/
theorem base64_roundtrip (b : List Nat) (hb : ∀ x ∈ b, x < 256) :
    Haven.base64ToArrayBuffer (Haven.arrayBufferToBase64 b) = b :=
  Haven.atob_btoa_bounded b.length b (Nat.le_refl _) hb

/-- Witness for C9 at a concrete buffer. -/
theorem base64_roundtrip_witness :
    Haven.base64ToArrayBuffer (Haven.arrayBufferToBase64 [0, 255, 7, 128, 64]) = [0, 255, 7, 128, 64] :=
  base64_roundtrip [0, 255, 7, 128, 64] (by decide)

open Haven in
/-- C1: decrypting the envelope produced by `encryptMessage` with the private
key and identity of any recipient in the map returns exactly the plaintext. -/
theorem encrypt_decrypt_roundtrip (text : String) (recips : List (String × Nat))
    (skBytes ivBytes : List Nat) (uid : String) (pk : Nat)
    (hmem : (uid, pk) ∈ recips) (hnd : (recips.map Prod.fst).Nodup) :
    decryptMessage (encryptMessage text recips skBytes ivBytes).encryptedContent
      (.keyMap (encryptMessage text recips skBytes ivBytes).encryptedKeys)
      (encryptMessage text recips skBytes ivBytes).iv pk uid = .ok text := by
  have hsel : recordLookup (recips.map fun p => (p.1, rsaEncrypt p.2 (Data.bytes skBytes))) uid
      = some (.rsaCt pk (.bytes skBytes)) := by
    simpa [arrayBufferToBase64Sym] using
      recordLookup_wrapped recips (.bytes skBytes) uid pk hmem hnd
  simp [decryptMessage, selectWrappedKey, hsel, isFalsyStr, rsaDecrypt,
    base64ToArrayBufferSym, arrayBufferToBase64Sym, aesDecrypt, aesEncrypt,
    encryptMessage, textDecode]

open Haven in
/-- Witness for C1: alice decrypts a two-recipient envelope to the plaintext. -/
theorem encrypt_decrypt_roundtrip_witness :
    ("alice", 1) ∈ [("alice", (1 : Nat)), ("bob", 2)] ∧
    (([("alice", (1 : Nat)), ("bob", 2)]).map Prod.fst).Nodup ∧
    decryptMessage
      (encryptMessage "hello" [("alice", 1), ("bob", 2)] [7] [8]).encryptedContent
      (.keyMap (encryptMessage "hello" [("alice", 1), ("bob", 2)] [7] [8]).encryptedKeys)
      (encryptMessage "hello" [("alice", 1), ("bob", 2)] [7] [8]).iv 1 "alice"
      = .ok "hello" :=
  ⟨by decide, by decide,
    encrypt_decrypt_roundtrip "hello" [("alice", 1), ("bob", 2)] [7] [8] "alice" 1
      (by decide) (by decide)⟩

open Haven in
/-- C2: the envelope's `encryptedKeys` carries exactly one wrapped-key entry
per input recipient — the same identities, no extras and no omissions. -/
theorem encrypt_wraps_exactly_recipients (text : String) (recips : List (String × Nat))
    (skBytes ivBytes : List Nat) :
    (encryptMessage text recips skBytes ivBytes).encryptedKeys.map Prod.fst
      = recips.map Prod.fst := by
  simp [encryptMessage, List.map_map]

open Haven in
/-- C3 counterexample: on the empty recipient map `encryptMessage` does not
fail — it returns an envelope (with no wrapped keys). -/
theorem encrypt_empty_returns_envelope :
    Haven.encryptMessage "hello" [] [0] [1] =
      { encryptedContent := .aesCt (.bytes [0]) (.bytes [1]) (.text "hello")
        encryptedKeys := []
        iv := .bytes [1] } := rfl

open Haven in
/-- C3 amended: `encryptMessage` never fails; it returns an envelope for
every recipient map, and the envelope has an empty `encryptedKeys` exactly
when the recipient map is empty (so the empty-map envelope is readable by
no one, but the call itself succeeds). -/
theorem encrypt_encryptedKeys_empty_iff (text : String) (recips : List (String × Nat))
    (skBytes ivBytes : List Nat) :
    (encryptMessage text recips skBytes ivBytes).encryptedKeys = [] ↔ recips = [] := by
  simp [encryptMessage]

open Haven in
/-- C4: decrypting a map-shape envelope as an identity absent from
`encryptedKeys` fails with the distinguishable `noKeyForRecipient` error. -/
theorem missing_key_noKeyForRecipient (content iv : Data) (m : StrRecord)
    (uid : String) (sk : Nat) (habs : recordLookup m uid = none) :
    decryptMessage content (.keyMap m) iv sk uid = .error (.noKeyForRecipient uid) := by
  simp [decryptMessage, selectWrappedKey, habs]

open Haven in
/-- Witness for C4: carol is not in the wrap set and gets the missing-key
error. -/
theorem missing_key_noKeyForRecipient_witness :
    recordLookup [("alice", .rsaCt 1 (.bytes [3]))] "carol" = none ∧
    decryptMessage (.aesCt (.bytes [3]) (.bytes [4]) (.text "hello"))
      (.keyMap [("alice", .rsaCt 1 (.bytes [3]))]) (.bytes [4]) 2 "carol"
      = .error (.noKeyForRecipient "carol") :=
  ⟨rfl, missing_key_noKeyForRecipient _ _ _ _ _ rfl⟩

open Haven in
/-- C5: a legacy-shape envelope wrapped for the holder's key pair decrypts
to the original plaintext for every value of the `userId` argument. -/
theorem legacy_decrypt_ignores_userId (text : String) (skBytes ivBytes : List Nat)
    (pk : Nat) (uid : String) :
    decryptMessage (.aesCt (.bytes skBytes) (.bytes ivBytes) (.text text))
      (.legacy (.rsaCt pk (.bytes skBytes))) (.bytes ivBytes) pk uid = .ok text := by
  simp [decryptMessage, selectWrappedKey, rsaDecrypt, aesDecrypt, textDecode,
    base64ToArrayBufferSym]

open Haven in
/-- C6: two `encryptMessage` calls on identical plaintext and recipients but
with distinct random draws (fresh session key and fresh iv) produce
envelopes with different `iv` and different `encryptedContent`. -/
theorem encrypt_fresh_randomness_differs (text : String) (recips : List (String × Nat))
    (sk₁ iv₁ sk₂ iv₂ : List Nat) (hsk : sk₁ ≠ sk₂) (hiv : iv₁ ≠ iv₂) :
    (encryptMessage text recips sk₁ iv₁).iv ≠ (encryptMessage text recips sk₂ iv₂).iv ∧
    (encryptMessage text recips sk₁ iv₁).encryptedContent
      ≠ (encryptMessage text recips sk₂ iv₂).encryptedContent := by
  constructor
  · simp [encryptMessage, arrayBufferToBase64Sym, hiv]
  · simp [encryptMessage, arrayBufferToBase64Sym, aesEncrypt, hsk]

open Haven in
/-- Witness for C6 at concrete distinct random draws. -/
theorem encrypt_fresh_randomness_differs_witness :
    ([0] : List Nat) ≠ [1] ∧ ([2] : List Nat) ≠ [3] ∧
    ((encryptMessage "m" [("a", 1)] [0] [2]).iv
        ≠ (encryptMessage "m" [("a", 1)] [1] [3]).iv ∧
      (encryptMessage "m" [("a", 1)] [0] [2]).encryptedContent
        ≠ (encryptMessage "m" [("a", 1)] [1] [3]).encryptedContent) :=
  ⟨by decide, by decide,
    encrypt_fresh_randomness_differs "m" [("a", 1)] [0] [2] [1] [3] (by decide) (by decide)⟩

open Haven in
/-- C7: batch decryption maps each stored message independently — a message
whose content fails to parse or decrypt is rendered as the sentinel while
every other message still decrypts to its plaintext, and no row is dropped. -/
theorem batch_decrypt_isolated (sk : Nat) (uid : String) (msgs : List StoredMessage)
    (i j : Fin msgs.length) (t : String) (e : CryptoError)
    (hfail : tryDecryptStored sk uid (msgs.get i).content = .error e)
    (hok : tryDecryptStored sk uid (msgs.get j).content = .ok t) :
    (fetchMessagesDecrypt sk uid msgs).length = msgs.length ∧
    ((fetchMessagesDecrypt sk uid msgs).map (fun m => m.decryptedContent))[i.val]?
      = some decryptFailedSentinel ∧
    ((fetchMessagesDecrypt sk uid msgs).map (fun m => m.decryptedContent))[j.val]?
      = some t := by
  refine ⟨by simp [fetchMessagesDecrypt], ?_, ?_⟩
  · simp only [fetchMessagesDecrypt, List.map_map, List.getElem?_map,
      List.getElem?_eq_getElem i.isLt]
    simp [Function.comp, processStoredMessage, List.get_eq_getElem, hfail]
    simp only [List.get_eq_getElem] at hfail
    simp [hfail]
  · simp only [fetchMessagesDecrypt, List.map_map, List.getElem?_map,
      List.getElem?_eq_getElem j.isLt]
    simp [Function.comp, processStoredMessage, List.get_eq_getElem, hok]
    simp only [List.get_eq_getElem] at hok
    simp [hok]

open Haven in
/-- Witness for C7: a two-row batch where the first row is unparseable and
the second decrypts to its plaintext. -/
theorem batch_decrypt_isolated_witness :
    (fetchMessagesDecrypt 5 "u" demoBatch).length = demoBatch.length ∧
    ((fetchMessagesDecrypt 5 "u" demoBatch).map (fun m => m.decryptedContent))[(0 : Nat)]?
      = some decryptFailedSentinel ∧
    ((fetchMessagesDecrypt 5 "u" demoBatch).map (fun m => m.decryptedContent))[(1 : Nat)]?
      = some "hi" :=
  batch_decrypt_isolated 5 "u" demoBatch ⟨0, by decide⟩ ⟨1, by decide⟩ "hi" .parseError
    rfl rfl

open Haven in
/-- C8 counterexample: at a concrete envelope wrapped for key pair 1, the
failure produced by unwrapping with key pair 2's private key is the very
same error value that a holder with the correct private key gets from a
generic content-decryption (AES-GCM tag) failure — both `subtle.decrypt`
rejections surface as the same un-tagged generic error, so the unwrap
failure is not distinguishable from a generic decryption failure. -/
theorem unwrap_failure_indistinguishable :
    decryptMessage (.aesCt (.bytes [3]) (.bytes [4]) (.text "hello"))
      (.keyMap [("alice", .rsaCt 1 (.bytes [3]))]) (.bytes [4]) 2 "alice"
      = .error .operationError ∧
    decryptMessage (.aesCt (.bytes [9]) (.bytes [4]) (.text "hello"))
      (.keyMap [("alice", .rsaCt 1 (.bytes [3]))]) (.bytes [4]) 1 "alice"
      = .error .operationError ∧
    decryptMessage (.aesCt (.bytes [3]) (.bytes [4]) (.text "hello"))
      (.keyMap [("alice", .rsaCt 1 (.bytes [3]))]) (.bytes [4]) 2 "alice"
      = decryptMessage (.aesCt (.bytes [9]) (.bytes [4]) (.text "hello"))
          (.keyMap [("alice", .rsaCt 1 (.bytes [3]))]) (.bytes [4]) 1 "alice" :=
  ⟨rfl, rfl, rfl⟩

open Haven in
/-- C8 amended: a wrapped key produced for recipient A's key pair cannot be
unwrapped with recipient B's private key — the unwrap rejects, never
silently returning bytes that would decrypt to wrong plaintext — but the
failure surfaces as the same generic error as any other `subtle.decrypt`
rejection, so it is not distinguishable from a generic decryption failure. -/
theorem wrong_private_key_fails (content iv : Data) (m : StrRecord)
    (uid : String) (pkA skB : Nat) (sk : Data)
    (hA : recordLookup m uid = some (.rsaCt pkA sk)) (hne : pkA ≠ skB) :
    rsaDecrypt skB (rsaEncrypt pkA sk) = .error .operationError ∧
    decryptMessage content (.keyMap m) iv skB uid = .error .operationError := by
  constructor
  · simp [rsaDecrypt, rsaEncrypt, hne]
  · simp [decryptMessage, selectWrappedKey, hA, isFalsyStr, rsaDecrypt,
      base64ToArrayBufferSym, hne]

open Haven in
/-- Witness for the amended C8: key pair 1 wraps, key pair 2 cannot unwrap. -/
theorem wrong_private_key_fails_witness :
    recordLookup [("alice", .rsaCt 1 (.bytes [3]))] "alice"
      = some (.rsaCt 1 (.bytes [3])) ∧ (1 : Nat) ≠ 2 ∧
    (rsaDecrypt 2 (rsaEncrypt 1 (.bytes [3])) = .error .operationError ∧
      decryptMessage (.aesCt (.bytes [3]) (.bytes [4]) (.text "hello"))
        (.keyMap [("alice", .rsaCt 1 (.bytes [3]))]) (.bytes [4]) 2 "alice"
        = .error .operationError) :=
  ⟨rfl, by decide,
    wrong_private_key_fails (.aesCt (.bytes [3]) (.bytes [4]) (.text "hello"))
      (.bytes [4]) [("alice", .rsaCt 1 (.bytes [3]))] "alice" 1 2 (.bytes [3])
      rfl (by decide)⟩

/-- C10: every username produced by `generateUsername` — for any values of the
three random draws, hence for every choice of adjective, noun and number —
is accepted by `validateUsername`, which returns `{valid: true}`. -/
theorem generateUsername_validates (r1 r2 r3 : Nat) :
    Haven.validateUsername (Haven.generateUsername r1 r2 r3) = ⟨true, none⟩ := by
  have hiA : Haven.getSecureRandomInt r1 Haven.adjectives.length < 40 := by
    rw [Haven.adjectives_length]
    simp [Haven.getSecureRandomInt]
    omega
  have hiB : Haven.getSecureRandomInt r2 Haven.nouns.length < 40 := by
    rw [Haven.nouns_length]
    simp [Haven.getSecureRandomInt]
    omega
  have hiD : Haven.getSecureRandomInt r3 1000 < 1000 := by
    simp [Haven.getSecureRandomInt]
    omega
  obtain ⟨hcapA, hA3, hA6⟩ := Haven.adj_ok _ hiA
  obtain ⟨hcapB, hB3, hB9⟩ := Haven.noun_ok _ hiB
  obtain ⟨hD1, hD3, hDd⟩ := Haven.natToDecimal_ok _ hiD
  rw [Haven.generateUsername]
  exact Haven.username_parts_valid _ _ _ hcapA hcapB hA3 hA6 hB3 hB9 hD1 hD3 hDd
